import Mathlib

/-!
Verification of the voice/language selection state machine and synthesis
request lifecycle of the tts-web client (src/src/App.jsx), as a shallow
embedding in Lean 4.

The embedding models JavaScript strings as Lean strings, JS truthiness of a
string as non-emptiness, and the React state updates of the component as
pure functions over explicit state records.
-/

namespace TtsWeb

/-- Voice record as delivered by the voice-listing endpoint:
`{id, languageCode, languageName, gender?, supportedEngines}`.
The optional gender field is never read by the core logic and is omitted. -/
structure Voice where
  id : String
  languageCode : String
  languageName : String
  supportedEngines : List String
deriving DecidableEq, Repr

/-- The character bound: `const MAX_CHARS = 3000`. -/
def MAX_CHARS : Nat := 3000

/-- Character count of the text: `const chars = text.length`. -/
def chars (text : String) : Nat := text.length

/-- Over-length flag: `const over = chars > MAX_CHARS`. -/
def over (text : String) : Bool := decide (chars text > MAX_CHARS)

/-- Model of JavaScript String.prototype.trim: strip leading and trailing
whitespace from the character sequence. -/
def jsTrim (s : String) : String :=
  ⟨((s.data.dropWhile Char.isWhitespace).reverse.dropWhile Char.isWhitespace).reverse⟩

/-- Submission gate: `const canGo = !busy && !over && text.trim()`.
JS truthiness of `text.trim()` is non-emptiness of the trimmed string. -/
def canGo (busy : Bool) (text : String) : Bool :=
  !busy && !over text && !(jsTrim text == "")

/-- Selection triple held in component state: `lang`, `voice`, `engine`
(each a string; `""` means none / standard engine). -/
structure Selection where
  lang : String
  voice : String
  engine : String
deriving DecidableEq, Repr

/-- Voices filtered by the selected language:
`if(!lang) return voices; return voices.filter(v=>v.languageCode===lang)`. -/
def filteredVoices (lang : String) (voices : List Voice) : List Voice :=
  if lang = "" then voices else voices.filter (fun v => v.languageCode = lang)

/-- The default voice/engine useEffect, run synchronously after a state
change: when the filtered list is non-empty and the selected voice is empty
or not found in it, select the first filtered voice and reset the engine to
"neural" exactly when that voice supports it; otherwise leave the state
unchanged. -/
def repair (voices : List Voice) (s : Selection) : Selection :=
  let fv := filteredVoices s.lang voices
  match fv with
  | [] => s
  | v0 :: _ =>
    if s.voice = "" ∨ (fv.find? (fun v => v.id == s.voice)).isNone then
      { s with voice := v0.id,
               engine := if "neural" ∈ v0.supportedEngines then "neural" else "" }
    else s

/-- The setLang state update followed by the invariant-repair effect. -/
def setLanguage (voices : List Voice) (s : Selection) (code : String) : Selection :=
  repair voices { s with lang := code }

/-- The setVoice state update (manual voice override from the voice select)
followed by the invariant-repair effect. -/
def setVoiceAct (voices : List Voice) (s : Selection) (id : String) : Selection :=
  repair voices { s with voice := id }

/-- Modelled from the spec claim wording only (for comparison with `canGo`):
submission allowed iff not busy, length within bound, trimmed text
non-empty, and a voice is selected. -/
def canSubmitSpec (busy : Bool) (text : String) (voice : String) : Bool :=
  !busy && decide (text.length ≤ MAX_CHARS) && !(jsTrim text == "") && !(voice == "")

/-- C1 counterexample: with no voice selected, not busy and non-empty text,
the code value canGo is already true, while the claimed condition (which
requires a selected voice) is false; canGo does not depend on the voice at
all. -/
theorem C1_counterexample :
    canGo false "hi" = true ∧ canSubmitSpec false "hi" "" = false := by
  decide

/-- C1 amended: canGo is true iff the controller is not busy, the text
length is at most MAX_CHARS, and the trimmed text is non-empty; whether a
voice is selected is not part of the condition. -/
theorem C1_amended (busy : Bool) (text : String) :
    canGo busy text = true ↔
      (busy = false ∧ text.length ≤ MAX_CHARS ∧ jsTrim text ≠ "") := by
  cases busy <;> simp [canGo, over, chars, Nat.not_lt]

/-- The hardcoded fallback voice installed by the catch branch of load. -/
def fallbackVoice : Voice :=
  ⟨"Joanna", "en-US", "US English", ["standard", "neural"]⟩

/-- C2 counterexample: with a catalog containing only the en-US voice
Joanna and Joanna selected, setLanguage "fr-FR" leaves the selection
untouched: no voice in the catalog has languageCode "fr-FR", yet the
selected voice stays "Joanna" (non-empty) and the engine stays "neural",
instead of the selection becoming empty as claimed. -/
theorem C2_counterexample :
    (∀ v ∈ [fallbackVoice], v.languageCode ≠ "fr-FR") ∧
    setLanguage [fallbackVoice] ⟨"en-US", "Joanna", "neural"⟩ "fr-FR" =
      ⟨"fr-FR", "Joanna", "neural"⟩ := by
  decide

/-- C2 amended: after setLanguage(code) and the synchronous repair, if some
voice in the catalog has languageCode equal to code, the selected voice
references a voice whose languageCode equals code; but if no voice matches
code, the repair effect does nothing, so the previous voice and engine are
kept unchanged (the selection does not become empty). -/
theorem C2_amended (voices : List Voice) (s : Selection) (code : String)
    (hc : code ≠ "") :
    ((∃ v ∈ voices, v.languageCode = code) →
       ∃ v ∈ voices,
         v.id = (setLanguage voices s code).voice ∧ v.languageCode = code) ∧
    ((∀ v ∈ voices, v.languageCode ≠ code) →
       setLanguage voices s code = { s with lang := code }) := by
  obtain ⟨sl, sv, se⟩ := s
  have hfv : filteredVoices code voices =
      voices.filter (fun v => v.languageCode = code) := by
    simp [filteredVoices, hc]
  constructor
  · rintro ⟨w, hw, hwc⟩
    have hmem : w ∈ filteredVoices code voices := by
      rw [hfv]
      exact List.mem_filter.mpr ⟨hw, by simp [hwc]⟩
    rcases h₂ : filteredVoices code voices with _ | ⟨v0, rest⟩
    · rw [h₂] at hmem
      cases hmem
    · have hv0 : v0 ∈ voices ∧ v0.languageCode = code := by
        have : v0 ∈ filteredVoices code voices := by
          rw [h₂]; exact List.mem_cons_self v0 rest
        rw [hfv] at this
        have h := List.mem_filter.mp this
        exact ⟨h.1, by simpa using h.2⟩
      simp only [setLanguage, repair, h₂]
      split
      · exact ⟨v0, hv0.1, rfl, hv0.2⟩
      · rename_i hcond
        push_neg at hcond
        obtain ⟨hsv, hfind⟩ := hcond
        rcases hsome : List.find? (fun v => v.id == sv) (v0 :: rest) with _ | v
        · rw [hsome] at hfind
          simp at hfind
        · have hvmem : v ∈ filteredVoices code voices := by
            rw [h₂]
            exact List.mem_of_find?_eq_some hsome
          have hvid : v.id = sv := by
            have := List.find?_some hsome
            simpa using this
          rw [hfv] at hvmem
          have h := List.mem_filter.mp hvmem
          exact ⟨v, h.1, hvid, by simpa using h.2⟩
  · intro hnone
    have hnil : filteredVoices code voices = [] := by
      rw [hfv]
      exact List.filter_eq_nil_iff.mpr fun v hv => by simpa using hnone v hv
    simp only [setLanguage, repair, hnil]

/-- C2 witness data: catalog with one en-US voice. -/
theorem C2_amended_witness :
    ∃ v ∈ [fallbackVoice],
      v.id = (setLanguage [fallbackVoice] ⟨"", "", ""⟩ "en-US").voice ∧
      v.languageCode = "en-US" :=
  (C2_amended [fallbackVoice] ⟨"", "", ""⟩ "en-US" (by decide)).1
    ⟨fallbackVoice, by decide, by decide⟩

/-- Two-voice catalog used to exercise the manual voice override: voice A
supports neural, voice B supports only standard, both en-US. -/
def twoVoiceCatalog : List Voice :=
  [⟨"A", "en-US", "US English", ["standard", "neural"]⟩,
   ⟨"B", "en-US", "US English", ["standard"]⟩]

/-- C3 counterexample: starting from the state the repair effect itself
produces (voice A, engine neural), a manual setVoice to B — a voice of the
same language that does not support neural — leaves the engine at "neural":
the neural-support invariant is not re-validated on a manual voice change. -/
theorem C3_counterexample :
    setVoiceAct twoVoiceCatalog (repair twoVoiceCatalog ⟨"en-US", "", ""⟩) "B" =
      ⟨"en-US", "B", "neural"⟩ ∧
    (∀ v ∈ twoVoiceCatalog, v.id = "B" → "neural" ∉ v.supportedEngines) := by
  decide

/-- C3 amended: the engine-validity invariant holds for the voice assigned
by the repair effect — when the repair replaces an empty or stale selection
(the selected voice is empty or absent from the filtered list) by the first
filtered voice, the resulting engine is "neural" exactly when that voice
supports neural — but a manual setVoice(id) to a voice present in the
current filtered list leaves the engine unchanged, so the invariant is not
re-validated on such a voice change. -/
theorem C3_amended (voices : List Voice) (s t : Selection) (id : String)
    (v0 : Voice) (rest : List Voice)
    (hrepl : s.voice = "" ∨ ((filteredVoices s.lang voices).find?
        (fun v => v.id == s.voice)).isNone = true)
    (hfv : filteredVoices s.lang voices = v0 :: rest)
    (hid : id ≠ "")
    (hfound : ((filteredVoices t.lang voices).find?
        (fun v => v.id == id)).isSome = true) :
    ((repair voices s).engine = "neural" ↔ "neural" ∈ v0.supportedEngines) ∧
    (setVoiceAct voices t id).engine = t.engine ∧
    (setVoiceAct voices t id).voice = id := by
  obtain ⟨tl, tv, te⟩ := t
  refine ⟨?_, ?_⟩
  · rw [hfv] at hrepl
    simp only [repair, hfv]
    rw [if_pos hrepl]
    by_cases hmem : "neural" ∈ v0.supportedEngines
    · simp [hmem]
    · simp [hmem]
  · rcases h₂ : filteredVoices tl voices with _ | ⟨w, ws⟩
    · simp [setVoiceAct, repair, h₂]
    · have hfound' : ((w :: ws).find? (fun v => v.id == id)).isSome = true := by
        rw [← h₂]
        exact hfound
      obtain ⟨v, hv⟩ := Option.isSome_iff_exists.mp hfound'
      have hcondfalse : ¬ (id = "" ∨
          ((w :: ws).find? (fun v => v.id == id)).isNone = true) := by
        rintro (h | h)
        · exact hid h
        · rw [hv] at h
          simp at h
      simp only [setVoiceAct, repair, h₂]
      rw [if_neg hcondfalse]
      exact ⟨rfl, rfl⟩

/-- C3 witness data: the two-voice catalog with a stale selection (a voice
id absent from the catalog) replaced by the repair, and a manual override
to voice B. -/
theorem C3_amended_witness :
    ((repair twoVoiceCatalog ⟨"en-US", "Z", ""⟩).engine = "neural" ↔
      "neural" ∈ (Voice.mk "A" "en-US" "US English"
        ["standard", "neural"]).supportedEngines) ∧
    (setVoiceAct twoVoiceCatalog ⟨"en-US", "A", "neural"⟩ "B").engine = "neural" ∧
    (setVoiceAct twoVoiceCatalog ⟨"en-US", "A", "neural"⟩ "B").voice = "B" :=
  C3_amended twoVoiceCatalog ⟨"en-US", "Z", ""⟩ ⟨"en-US", "A", "neural"⟩ "B"
    ⟨"A", "en-US", "US English", ["standard", "neural"]⟩
    [⟨"B", "en-US", "US English", ["standard"]⟩]
    (by decide) (by decide) (by decide) (by decide)

/-- History entry pushed on success:
`{ url:d.url, voice, ts:Date.now(), lang, engine }`. -/
structure HistoryEntry where
  url : String
  voice : String
  ts : Nat
  lang : String
  engine : String
deriving DecidableEq, Repr

/-- History push: `setHistory(h=>[entry, ...h].slice(0,6))` — prepend, then
keep the first 6 elements. -/
def pushHistory (e : HistoryEntry) (h : List HistoryEntry) : List HistoryEntry :=
  (e :: h).take 6

/-- Response body of the synthesize endpoint as read by the client:
`d.url` and `d.error`, with `""` modelling an absent field (JS undefined,
which is falsy exactly like the empty string in every use below). -/
structure Body where
  url : String
  error : String
deriving DecidableEq, Repr

/-- Outcome of the fetch/json step of a submission: either a settled
response (ok status flag plus parsed body), or a throw from fetch or from
json parsing (transport error or malformed body), carrying the message of
the thrown Error. -/
inductive FetchOutcome where
  | resp (ok : Bool) (body : Body)
  | thrown (msg : String)
deriving DecidableEq, Repr

/-- Request payload: `{ text, voice }` plus `engine` only when a non-empty
engine is selected (`if(engine) payload.engine = engine`). `none` models the
absent key. -/
structure Payload where
  text : String
  voice : String
  engine : Option String
deriving DecidableEq, Repr

/-- Component state touched by the synth handler. -/
structure AppState where
  busy : Bool
  error : String
  audioUrl : String
  history : List HistoryEntry
deriving DecidableEq, Repr

/-- The synth submit handler, for a given fetch outcome: guard on canGo
(early return, no request); set busy/clear error and url; build the
payload; then on a settled response either record the result and push
history (ok with non-empty url) or set the error to the error string of the
body if non-empty else "Synthesis failed"; on a throw set the error to the
thrown message if non-empty else "Failed to synthesize"; finally clear
busy. Returns the new state and the payload sent (none if no request was
made). -/
def synth (text voice lang engine : String) (ts : Nat) (st : AppState)
    (o : FetchOutcome) : AppState × Option Payload :=
  if canGo st.busy text = false then (st, none)
  else
    let payload : Payload :=
      { text := text, voice := voice,
        engine := if engine = "" then none else some engine }
    let st1 : AppState := { st with busy := true, error := "", audioUrl := "" }
    let st2 : AppState :=
      match o with
      | .thrown msg =>
        { st1 with error := if msg = "" then "Failed to synthesize" else msg }
      | .resp ok body =>
        if ok = false ∨ body.url = "" then
          { st1 with error :=
              if body.error = "" then "Synthesis failed" else body.error }
        else
          { st1 with audioUrl := body.url,
                     history := pushHistory
                       ⟨body.url, voice, ts, lang, engine⟩ st1.history }
    ({ st2 with busy := false }, some payload)

/-- Folding a sequence of pushes over an initial history. -/
def pushAll (h0 : List HistoryEntry) (es : List HistoryEntry) :
    List HistoryEntry :=
  es.foldl (fun acc e => pushHistory e acc) h0

/-- Helper for C4: a non-empty push sequence bounds the length by 6 and
puts the last-pushed entry at the head, for any accumulator. -/
theorem pushAll_length_head (es : List HistoryEntry) :
    ∀ (h0 : List HistoryEntry) (e : HistoryEntry), es.getLast? = some e →
      (pushAll h0 es).length ≤ 6 ∧ (pushAll h0 es).head? = some e := by
  induction es with
  | nil =>
    intro h0 e h
    cases h
  | cons x xs ih =>
    intro h0 e h
    cases xs with
    | nil =>
      have hx : x = e := by simpa [List.getLast?] using h
      subst hx
      constructor
      · exact List.length_take_le 6 (x :: h0)
      · simp [pushAll, pushHistory, List.take_cons]
    | cons y ys =>
      have hlast : (y :: ys).getLast? = some e := by
        simp only [List.getLast?_cons_cons] at h
        exact h
      have := ih (pushHistory x h0) e hlast
      simpa [pushAll] using this

/-- C4: pushing prepends and truncates to 6, so after any non-empty
sequence of successful syntheses the history has length at most 6 and its
head is the most recently pushed entry; moreover a single push is exactly
prepend-then-take-6. -/
theorem C4_history_bound (h0 : List HistoryEntry) (es : List HistoryEntry)
    (e : HistoryEntry) (hlast : es.getLast? = some e) :
    (∀ x h, pushHistory x h = (x :: h).take 6) ∧
    (pushAll h0 es).length ≤ 6 ∧ (pushAll h0 es).head? = some e :=
  ⟨fun _ _ => rfl, pushAll_length_head es h0 e hlast⟩

/-- C4 witness: two concrete pushes starting from the empty history. -/
theorem C4_history_bound_witness :
    (∀ x h, pushHistory x h = (x :: h).take 6) ∧
    (pushAll [] [⟨"u1", "Joanna", 1, "en-US", ""⟩,
                 ⟨"u2", "Joanna", 2, "en-US", "neural"⟩]).length ≤ 6 ∧
    (pushAll [] [⟨"u1", "Joanna", 1, "en-US", ""⟩,
                 ⟨"u2", "Joanna", 2, "en-US", "neural"⟩]).head? =
      some ⟨"u2", "Joanna", 2, "en-US", "neural"⟩ :=
  C4_history_bound [] _ _ (by decide)

/-- C5: whenever a submission actually starts (the canGo guard passes),
the busy flag is false after settlement, for every fetch outcome: settled
ok response, settled failure response, or thrown transport/parse error. -/
theorem C5_busy_cleanup (text voice lang engine : String) (ts : Nat)
    (st : AppState) (o : FetchOutcome) (hgo : canGo st.busy text = true) :
    (synth text voice lang engine ts st o).1.busy = false := by
  simp [synth, hgo]

/-- C5 witness: a concrete submission with a thrown transport error. -/
theorem C5_busy_cleanup_witness :
    (synth "Hello" "Joanna" "en-US" "" 0 ⟨false, "", "", []⟩
      (.thrown "NetworkError")).1.busy = false :=
  C5_busy_cleanup "Hello" "Joanna" "en-US" "" 0 ⟨false, "", "", []⟩
    (.thrown "NetworkError") (by decide)

/-- Language entry derived for the language select: `{code, name}`. -/
structure Language where
  code : String
  name : String
deriving DecidableEq, Repr

/-- Catalog-related component state touched by the load effect. -/
structure CatalogState where
  voices : List Voice
  languages : List Language
  lang : String
  voice : String
  error : String
deriving DecidableEq, Repr

/-- The catch branch of load, taken on any non-ok status, transport failure
or malformed body: set the fixed error message, install the single fallback
voice and language, and select en-US / Joanna. -/
def loadFailure (st : CatalogState) : CatalogState :=
  { st with
    error := "API not configured in this demo page.",
    voices := [fallbackVoice],
    languages := [⟨"en-US", "US English"⟩],
    lang := "en-US",
    voice := "Joanna" }

/-- C6 counterexample: the error message set by the failure branch is the
literal "API not configured in this demo page.", not the claimed
"remote service unavailable". -/
theorem C6_counterexample :
    (loadFailure ⟨[], [], "", "", ""⟩).error =
      "API not configured in this demo page." ∧
    (loadFailure ⟨[], [], "", "", ""⟩).error ≠ "remote service unavailable" := by
  decide

/-- C6 amended: when the catalog load fails, the loader sets the fixed
error message "API not configured in this demo page." and substitutes
exactly one fallback voice (Joanna, en-US, US English, supporting standard
and neural) and one fallback language (en-US / US English), with en-US
selected as the language and Joanna as the voice, regardless of the
previous state. -/
theorem C6_amended (st : CatalogState) :
    loadFailure st =
      ⟨[⟨"Joanna", "en-US", "US English", ["standard", "neural"]⟩],
       [⟨"en-US", "US English"⟩], "en-US", "Joanna",
       "API not configured in this demo page."⟩ :=
  rfl

/-- C7: on submission failure the displayed message is the error string of
the service response body when one is present; otherwise, for a settled
failure response, the generic "Synthesis failed"; and for a thrown
transport or parse error, the thrown error message itself. A settled
failure leaves the history unchanged; in particular an HTTP 500 with body
error "quota exceeded" displays "quota exceeded", keeps the history and
clears busy. -/
theorem C7_failure_message (text voice lang engine : String) (ts : Nat)
    (st : AppState) (hgo : canGo st.busy text = true) :
    (∀ ok body, (ok = false ∨ body.url = "") → body.error ≠ "" →
      (synth text voice lang engine ts st (.resp ok body)).1.error = body.error ∧
      (synth text voice lang engine ts st (.resp ok body)).1.history =
        st.history) ∧
    (∀ ok body, (ok = false ∨ body.url = "") → body.error = "" →
      (synth text voice lang engine ts st (.resp ok body)).1.error =
        "Synthesis failed") ∧
    (∀ msg, msg ≠ "" →
      (synth text voice lang engine ts st (.thrown msg)).1.error = msg) ∧
    ((synth text voice lang engine ts st
        (.resp false ⟨"", "quota exceeded"⟩)).1.error = "quota exceeded" ∧
     (synth text voice lang engine ts st
        (.resp false ⟨"", "quota exceeded"⟩)).1.history = st.history ∧
     (synth text voice lang engine ts st
        (.resp false ⟨"", "quota exceeded"⟩)).1.busy = false) := by
  refine ⟨?_, ?_, ?_, ?_⟩
  · intro ok body hfail herr
    simp [synth, hgo, if_pos hfail, herr]
  · intro ok body hfail herr
    simp [synth, hgo, if_pos hfail, herr]
  · intro msg hmsg
    simp [synth, hgo, hmsg]
  · refine ⟨?_, ?_, ?_⟩ <;> simp [synth, hgo]

/-- C7 witness: scenario D at a concrete state. -/
theorem C7_failure_message_witness :
    (synth "Hello" "Joanna" "en-US" "" 7 ⟨false, "", "", []⟩
      (.resp false ⟨"", "quota exceeded"⟩)).1.error = "quota exceeded" :=
  (C7_failure_message "Hello" "Joanna" "en-US" "" 7 ⟨false, "", "", []⟩
    (by decide)).2.2.2.1

/-- C8: the payload sent with a submission holds text and voice, with the
engine key absent (none) exactly when the selected engine is the empty
string, and present with its non-empty value otherwise; an empty-string
engine value is never sent. -/
theorem C8_payload_keys (text voice lang : String) (ts : Nat) (st : AppState)
    (o : FetchOutcome) (hgo : canGo st.busy text = true) :
    (synth text voice lang "" ts st o).2 = some ⟨text, voice, none⟩ ∧
    (∀ engine, engine ≠ "" →
      (synth text voice lang engine ts st o).2 =
        some ⟨text, voice, some engine⟩) ∧
    (∀ engine p, (synth text voice lang engine ts st o).2 = some p →
      p.engine ≠ some "") := by
  refine ⟨by simp [synth, hgo], fun engine he => by simp [synth, hgo, he], ?_⟩
  intro engine p hp
  by_cases he : engine = ""
  · subst he
    simp [synth, hgo] at hp
    simp [← hp]
  · simp [synth, hgo, he] at hp
    simp [← hp]
    exact fun h => he h

/-- C8 witness: scenario C payload at a concrete state. -/
theorem C8_payload_keys_witness :
    (synth "Hello" "Joanna" "en-US" "" 0 ⟨false, "", "", []⟩
      (.resp true ⟨"https://x/a.mp3", ""⟩)).2 =
      some ⟨"Hello", "Joanna", none⟩ :=
  (C8_payload_keys "Hello" "Joanna" "en-US" 0 ⟨false, "", "", []⟩
    (.resp true ⟨"https://x/a.mp3", ""⟩) (by decide)).1

/-- C9: with non-whitespace text of length exactly MAX_CHARS, a voice
selected and the controller idle, the gate passes and a request is sent;
with text of length MAX_CHARS + 1 the gate fails and synth returns without
sending any request and without touching the state. -/
theorem C9_maxchars_gate (st : AppState) (text1 text2 voice lang engine : String)
    (ts : Nat) (o : FetchOutcome)
    (hbusy : st.busy = false)
    (_hvoice : voice ≠ "")
    (h1len : text1.length = MAX_CHARS)
    (h1trim : jsTrim text1 ≠ "")
    (h2len : text2.length = MAX_CHARS + 1) :
    canGo st.busy text1 = true ∧
    (synth text1 voice lang engine ts st o).2.isSome = true ∧
    canGo st.busy text2 = false ∧
    synth text2 voice lang engine ts st o = (st, none) := by
  have hgo1 : canGo st.busy text1 = true := by
    simp [canGo, over, chars, hbusy, h1len, h1trim, MAX_CHARS]
  have hgo2 : canGo st.busy text2 = false := by
    simp [canGo, over, chars, h2len, MAX_CHARS]
  refine ⟨hgo1, by simp [synth, hgo1], hgo2, by simp [synth, hgo2]⟩

/-- A concrete text of length exactly MAX_CHARS. -/
def maxText : String := ⟨List.replicate MAX_CHARS 'x'⟩

/-- A concrete text of length MAX_CHARS + 1. -/
def overText : String := ⟨List.replicate (MAX_CHARS + 1) 'x'⟩

/-- Dropping whitespace from a run of x characters drops nothing. -/
theorem dropWhile_ws_replicate (n : Nat) :
    (List.replicate n 'x').dropWhile Char.isWhitespace =
      List.replicate n 'x' := by
  cases n with
  | zero => rfl
  | succ m =>
    rw [List.replicate_succ, List.dropWhile_cons,
      if_neg (by decide : ¬ (Char.isWhitespace 'x' = true))]

/-- Trimming a run of x characters changes nothing. -/
theorem jsTrim_replicate (n : Nat) :
    jsTrim ⟨List.replicate n 'x'⟩ = ⟨List.replicate n 'x'⟩ := by
  simp [jsTrim, dropWhile_ws_replicate, List.reverse_replicate]

/-- The maximal-length witness text has length MAX_CHARS. -/
theorem maxText_length : maxText.length = MAX_CHARS := by
  simp [maxText, String.length]

/-- The over-length witness text has length MAX_CHARS + 1. -/
theorem overText_length : overText.length = MAX_CHARS + 1 := by
  simp [overText, String.length]

/-- The maximal-length witness text does not trim to the empty string. -/
theorem maxText_trim_ne : jsTrim maxText ≠ "" := by
  rw [show maxText = ⟨List.replicate MAX_CHARS 'x'⟩ from rfl, jsTrim_replicate]
  intro hcon
  have hlen := congrArg List.length (congrArg String.data hcon)
  simp only [List.length_replicate, List.length_nil, MAX_CHARS] at hlen
  omega

/-- C9 witness: the boundary texts at a concrete idle state. -/
theorem C9_maxchars_gate_witness :
    canGo false maxText = true ∧
    (synth maxText "Joanna" "en-US" "" 0 ⟨false, "", "", []⟩
      (.resp true ⟨"https://x/a.mp3", ""⟩)).2.isSome = true ∧
    canGo false overText = false ∧
    synth overText "Joanna" "en-US" "" 0 ⟨false, "", "", []⟩
      (.resp true ⟨"https://x/a.mp3", ""⟩) = (⟨false, "", "", []⟩, none) :=
  C9_maxchars_gate ⟨false, "", "", []⟩ maxText overText "Joanna" "en-US" "" 0
    (.resp true ⟨"https://x/a.mp3", ""⟩) rfl (by decide)
    maxText_length maxText_trim_ne overText_length

/-- C10: when the selected language is the empty string, the filtered voice
list is the whole catalog (not the empty list), and the repair effect run
with an empty voice selection then selects the first catalog voice, whatever
its language. -/
theorem C10_empty_lang_filter (voices : List Voice) (v0 : Voice)
    (rest : List Voice) (s : Selection)
    (hl : s.lang = "") (hv : s.voice = "") :
    filteredVoices "" voices = voices ∧
    (repair (v0 :: rest) s).voice = v0.id := by
  constructor
  · simp [filteredVoices]
  · have hfv : filteredVoices s.lang (v0 :: rest) = v0 :: rest := by
      rw [hl]
      simp [filteredVoices]
    simp only [repair, hfv, hv]
    rw [if_pos (Or.inl trivial)]

/-- C10 witness: a single-voice French catalog with the initial empty
selection, whose first voice is selected by the repair even though no
language was chosen. -/
theorem C10_empty_lang_filter_witness :
    filteredVoices "" [⟨"Celine", "fr-FR", "French", ["standard"]⟩] =
      [⟨"Celine", "fr-FR", "French", ["standard"]⟩] ∧
    (repair [⟨"Celine", "fr-FR", "French", ["standard"]⟩]
      ⟨"", "", ""⟩).voice = "Celine" :=
  C10_empty_lang_filter [⟨"Celine", "fr-FR", "French", ["standard"]⟩]
    ⟨"Celine", "fr-FR", "French", ["standard"]⟩ [] ⟨"", "", ""⟩ rfl rfl

end TtsWeb
